import Mathlib

/-!
Verification of the scalar-bar slot bookkeeping and scalar-to-color binding
logic of `vtki/plotting.py` (class `BasePlotter`), as a shallow embedding.

Numeric values that are Python floats in the source are modelled as `ℚ`:
all the logic under scrutiny only compares, takes minima/maxima and checks
against zero, so the ordered-field structure is all that matters.
Mapper handles are modelled as natural numbers; titles as `String`s.
-/

namespace Vtki

instance {ε α : Type} [DecidableEq ε] [DecidableEq α] : DecidableEq (Except ε α) :=
  fun x y =>
    match x, y with
    | .ok a, .ok b =>
      if h : a = b then .isTrue (by rw [h]) else .isFalse (fun hh => h (Except.ok.inj hh))
    | .error a, .error b =>
      if h : a = b then .isTrue (by rw [h]) else .isFalse (fun hh => h (Except.error.inj hh))
    | .ok _, .error _ => .isFalse (fun hh => Except.noConfusion hh)
    | .error _, .ok _ => .isFalse (fun hh => Except.noConfusion hh)

/-- A `(min, max)` scalar range, as stored in `_scalar_bar_ranges` and in VTK
mappers via `SetScalarRange`. -/
abbrev SRange := ℚ × ℚ

/-- Association-list lookup, modelling Python `dict.__getitem__`/`in` on
string keys. -/
def alookup {β : Type} (k : String) : List (String × β) → Option β
  | [] => none
  | (k', v) :: rest => if k' = k then some v else alookup k rest

/-- Association-list update, modelling Python `dict.__setitem__`: replaces the
value of an existing key in place, otherwise appends the new binding. -/
def aupdate {β : Type} (k : String) (v : β) : List (String × β) → List (String × β)
  | [] => [(k, v)]
  | (k', v') :: rest => if k' = k then (k, v) :: rest else (k', v') :: aupdate k v rest

/-- Lookup on natural-number keys (mapper handles). -/
def nlookup {β : Type} (k : ℕ) : List (ℕ × β) → Option β
  | [] => none
  | (k', v) :: rest => if k' = k then some v else nlookup k rest

/-- Update on natural-number keys (mapper handles). -/
def nupdate {β : Type} (k : ℕ) (v : β) : List (ℕ × β) → List (ℕ × β)
  | [] => [(k, v)]
  | (k', v') :: rest => if k' = k then (k, v) :: rest else (k', v') :: nupdate k v rest

/-- `MAX_N_COLOR_BARS` from `plotting.py`. -/
def MAX_N_COLOR_BARS : ℕ := 10

/-- The scalar-bar bookkeeping state of a `BasePlotter`, together with the
scalar ranges currently set on the external VTK mapper objects
(`mapper.SetScalarRange` / `mapper.GetScalarRange`).

  * `scalarBarSlots`    models `self._scalar_bar_slots` (a Python `set`);
  * `scalarBarSlotLookup` models `self._scalar_bar_slot_lookup`;
  * `scalarBarRanges`   models `self._scalar_bar_ranges`;
  * `scalarBarMappers`  models `self._scalar_bar_mappers` (lists of handles);
  * `mapperRanges`      models the ranges held by the mapper objects. -/
structure PlotterState where
  scalarBarSlots : Finset ℕ
  scalarBarSlotLookup : List (String × ℕ)
  scalarBarRanges : List (String × SRange)
  scalarBarMappers : List (String × List ℕ)
  mapperRanges : List (ℕ × SRange)
  deriving DecidableEq

/-- `BasePlotter.__init__`: a fresh session has the full slot pool
`set(range(MAX_N_COLOR_BARS))` and empty bookkeeping dicts.  Mapper ranges of
external mappers are a parameter of the session. -/
def basePlotterInit (env : List (ℕ × SRange)) : PlotterState :=
  { scalarBarSlots := Finset.range MAX_N_COLOR_BARS
    scalarBarSlotLookup := []
    scalarBarRanges := []
    scalarBarMappers := []
    mapperRanges := env }

/-- `BasePlotter.clear` (lines 851-860): resets the slot pool and all
scalar-bar dicts.  External mapper objects are untouched. -/
def PlotterState.clear (st : PlotterState) : PlotterState :=
  { st with
    scalarBarSlots := Finset.range MAX_N_COLOR_BARS
    scalarBarSlotLookup := []
    scalarBarRanges := []
    scalarBarMappers := [] }

/-- `mapper.GetScalarRange()`.  A fresh `vtkDataSetMapper` reports `(0, 1)`,
the VTK default, until a range is set. -/
def getMapperRange (env : List (ℕ × SRange)) (m : ℕ) : SRange :=
  (nlookup m env).getD (0, 1)

/-- `mapper.SetScalarRange(lo, hi)`. -/
def setMapperRange (env : List (ℕ × SRange)) (m : ℕ) (r : SRange) : List (ℕ × SRange) :=
  nupdate m r env

/-- Python truthiness of the `title` argument (`if title:`): `None` and the
empty string are falsy. -/
def titleTruthy : Option String → Bool
  | none => false
  | some s => !s.isEmpty

/-- The exceptions `add_scalar_bar` can raise from the slot bookkeeping. -/
inductive SBError where
  /-- `RuntimeError('Maximum number of color bars reached.')` (line 1342). -/
  | maxColorBars : SBError
  /-- The uncaught `ValueError` from `min(self._scalar_bar_slots)` on an
  empty pool at line 1400, outside any `try`. -/
  | emptyPoolMin : SBError
  deriving Repr, DecidableEq

/-- The tail of `add_scalar_bar` guarded by `if title:` (lines 1396-1401):
store the mapper's current range and the mapper handle for this title, then
read `min(self._scalar_bar_slots)` — note: read from the pool as it stands
NOW, after any removal — and record it in the slot lookup.  The `min` of an
empty pool raises; by then `_scalar_bar_ranges` and `_scalar_bar_mappers`
have already been mutated, which the returned state reflects. -/
def recordTitled (st : PlotterState) (title : Option String) (mapper : ℕ) :
    PlotterState × Option SBError :=
  if titleTruthy title then
    let t := title.getD ""
    let rng := getMapperRange st.mapperRanges mapper
    let st1 := { st with
      scalarBarRanges := aupdate t rng st.scalarBarRanges
      scalarBarMappers := aupdate t [mapper] st.scalarBarMappers }
    if h : st1.scalarBarSlots.Nonempty then
      ({ st1 with
          scalarBarSlotLookup :=
            aupdate t (st1.scalarBarSlots.min' h) st1.scalarBarSlotLookup },
        none)
    else
      (st1, some SBError.emptyPoolMin)
  else
    (st, none)

/-- The state-relevant behaviour of `BasePlotter.add_scalar_bar` (lines
1290-1443).  Arguments: the acting mapper handle (`mapper=None` defaults to
`self.mapper`, here passed explicitly) and the `position_x` / `position_y`
keyword arguments, of which only presence matters to the bookkeeping.

Control flow mirrors the source:
  1. if the (truthy) title already has a stored range, take the merge path
     (lines 1317-1334): union the stored range with the mapper's current
     range, re-apply it to every previously stored mapper handle and to the
     new mapper, append the new handle, store the merged range, and return;
  2. otherwise, if either position is unspecified, pop
     `min(self._scalar_bar_slots)` (lines 1336-1342), raising
     `maxColorBars` on an empty pool with the state unchanged;
  3. finally record the titled entry (lines 1396-1401) via `recordTitled`. -/
def addScalarBar (st : PlotterState) (title : Option String) (mapper : ℕ)
    (posX posY : Option ℚ) : PlotterState × Option SBError :=
  if titleTruthy title ∧ (alookup (title.getD "") st.scalarBarRanges).isSome then
    let t := title.getD ""
    let rng := (alookup t st.scalarBarRanges).getD (0, 0)
    let newrng := getMapperRange st.mapperRanges mapper
    let merged : SRange := (min rng.1 newrng.1, max rng.2 newrng.2)
    let oldmappers := (alookup t st.scalarBarMappers).getD []
    let env := (oldmappers ++ [mapper]).foldl
      (fun e m => setMapperRange e m merged) st.mapperRanges
    ({ st with
        mapperRanges := env
        scalarBarMappers := aupdate t (oldmappers ++ [mapper]) st.scalarBarMappers
        scalarBarRanges := aupdate t merged st.scalarBarRanges },
      none)
  else
    if posX.isNone ∨ posY.isNone then
      if h : st.scalarBarSlots.Nonempty then
        let slot := st.scalarBarSlots.min' h
        recordTitled { st with scalarBarSlots := st.scalarBarSlots.erase slot }
          title mapper
      else
        (st, some SBError.maxColorBars)
    else
      recordTitled st title mapper

/-! ### The scalar pipeline of `add_mesh` (lines 654-768) -/

/-- A numpy array element as it matters to this pipeline: an IEEE NaN, a
finite number, or (before coercion) a boolean. -/
inductive NpValue where
  | nan : NpValue
  | num : ℚ → NpValue
  | boolean : Bool → NpValue
  deriving DecidableEq

/-- A numpy array: its rank, whether its dtype is `np.bool`, and its data in
flattened (C-order) form. -/
structure NArray where
  ndim : ℕ
  isBool : Bool
  data : List NpValue
  deriving DecidableEq

/-- `scalars.ravel()`: flattening only changes the rank; the flattened data
is already what `data` stores. -/
def NArray.ravel (a : NArray) : NArray := { a with ndim := 1 }

/-- `astype(np.float)` on one element: booleans become `0.0` / `1.0`. -/
def NpValue.astypeFloat : NpValue → NpValue
  | .boolean b => .num (if b then 1 else 0)
  | v => v

/-- `scalars.astype(np.float)` for a boolean array (lines 717-718). -/
def NArray.astypeFloat (a : NArray) : NArray :=
  { a with isBool := false, data := a.data.map NpValue.astypeFloat }

/-- The finite (non-NaN) numeric entries of a data list. -/
def finiteVals (data : List NpValue) : List ℚ :=
  data.filterMap fun v => match v with
    | .num q => some q
    | _ => none

/-- `np.nanmin`: the minimum over the non-NaN entries (`none` when there is
no finite entry; that degenerate case is outside the claims). -/
def nanmin (data : List NpValue) : Option ℚ := (finiteVals data).min?

/-- `np.nanmax`: the maximum over the non-NaN entries. -/
def nanmax (data : List NpValue) : Option ℚ := (finiteVals data).max?

/-- The mesh data visible to the pipeline: `GetNumberOfPoints()`,
`GetNumberOfCells()`, the texture store, and the active scalar array with
its name (`mesh.active_scalar` / `mesh.active_scalar_info[1]`). -/
structure Mesh where
  nPoints : ℕ
  nCells : ℕ
  textures : List String
  activeScalar : Option NArray
  activeScalarName : String
  deriving DecidableEq

/-- Which data store a scalar array was routed to. -/
inductive Association where
  | point : Association
  | cell : Association
  deriving DecidableEq

/-- The exception of `_raise_not_matching` (lines 106-111), carrying exactly
the three numbers interpolated into its message: `scalars.size`,
`mesh.GetNumberOfPoints()`, `mesh.GetNumberOfCells()`. -/
inductive AddMeshError where
  | notMatching (nscalars npoints ncells : ℕ) : AddMeshError
  deriving DecidableEq

/-- The `rng` argument of `add_mesh`: absent, a single number, or a
two-element sequence. -/
inductive RngSpec where
  | absent : RngSpec
  | scalar (s : ℚ) : RngSpec
  | pair (lo hi : ℚ) : RngSpec
  deriving DecidableEq

/-- The association branch (lines 720-734): point count first, then cell
count, else `_raise_not_matching`. -/
def chooseAssociation (sz nPoints nCells : ℕ) : Except AddMeshError Association :=
  if sz = nPoints then .ok .point
  else if sz = nCells then .ok .cell
  else .error (.notMatching sz nPoints nCells)

/-- The range-resolution branch (lines 736-740): an absent `rng` becomes
`[np.nanmin(scalars), np.nanmax(scalars)]`; a bare number `s` becomes
`[-s, s]`; a pair is kept as given.  Returns `none` only in the
all-NaN-data case, which no claim exercises. -/
def resolveRange (rng : RngSpec) (data : List NpValue) : Option SRange :=
  match rng with
  | .absent =>
    match nanmin data, nanmax data with
    | some lo, some hi => some (lo, hi)
    | _, _ => none
  | .scalar s => some (-s, s)
  | .pair lo hi => some (lo, hi)

/-- `np.any(rng)` on a resolved two-element range: true unless both entries
are (numeric) zero. -/
def npAny (r : SRange) : Bool := !(r.1 = 0 ∧ r.2 = 0)

/-- What the scalar-formatting block decided for one `add_mesh` call. -/
structure ScalarsOutcome where
  assoc : Association
  coerced : List NpValue
  resolvedRng : Option SRange
  appliedRng : Option SRange
  deriving DecidableEq

/-- The scalar-formatting pipeline of `add_mesh` for a directly supplied
array (lines 711-743): flatten when `ndim != 1`, coerce `np.bool` data to
float, route by size (point count first, then cell count, else
`_raise_not_matching`), resolve the range, and apply it to the mapper via
`SetScalarRange` only when `np.any(rng)` holds. -/
def addMeshScalars (mesh : Mesh) (raw : NArray) (rng : RngSpec) :
    Except AddMeshError ScalarsOutcome :=
  let s1 := if raw.ndim ≠ 1 then raw.ravel else raw
  let s2 := if s1.isBool then s1.astypeFloat else s1
  match chooseAssociation s2.data.length mesh.nPoints mesh.nCells with
  | .error e => .error e
  | .ok assoc =>
    let resolved := resolveRange rng s2.data
    let applied := match resolved with
      | some r => if npAny r then some r else none
      | none => none
    .ok { assoc := assoc, coerced := s2.data,
          resolvedRng := resolved, appliedRng := applied }

/-- The default-preference block of `add_mesh` (lines 665-678), entered only
when `scalars is None and color is None and texture is None`: prefer an
existing texture; otherwise take `mesh.active_scalar` when it is rank-1
(also defaulting the scalar-bar title to the active array's name), else drop
to no scalars (flat color).  Returns the `(scalars, stitle, texture)` triple
as it stands after the block. -/
def resolveDefaultScalars (mesh : Mesh) (scalars : Option NArray)
    (color : Option String) (texture : Bool) (stitle : Option String) :
    Option NArray × Option String × Bool :=
  if scalars.isNone ∧ color.isNone ∧ texture = false then
    if mesh.textures.length > 0 then (none, stitle, true)
    else
      match mesh.activeScalar with
      | none => (none, stitle, false)
      | some arr =>
        if arr.ndim ≠ 1 then (none, stitle, false)
        else (some arr, some (stitle.getD mesh.activeScalarName), false)
  else (scalars, stitle, texture)

/-! ### Font parsing (`parse_font_family`, lines 2418-2426) -/

/-- `vtk.VTK_ARIAL`. -/
def VTK_ARIAL : ℕ := 0
/-- `vtk.VTK_COURIER`. -/
def VTK_COURIER : ℕ := 1
/-- `vtk.VTK_TIMES`. -/
def VTK_TIMES : ℕ := 2

/-- The `FONT_KEYS` dict (lines 31-33). -/
def FONT_KEYS : List (String × ℕ) :=
  [("arial", VTK_ARIAL), ("courier", VTK_COURIER), ("times", VTK_TIMES)]

/-- The exception of `parse_font_family`. -/
inductive FontError where
  | invalidFont : FontError
  deriving DecidableEq

/-- `font_family.lower()`: character-wise lower-casing.  (The accepted names
are pure ASCII, for which this matches Python's `str.lower`.) -/
def pyLower (s : String) : String := ⟨s.data.map Char.toLower⟩

/-- `parse_font_family` (lines 2418-2426): lower-case the name, reject it
unless it is one of `['courier', 'times', 'arial']`, and return the
`FONT_KEYS` engine constant for it. -/
def parseFontFamily (fontFamily : String) : Except FontError ℕ :=
  let f := pyLower fontFamily
  if f ∉ ["courier", "times", "arial"] then .error .invalidFont
  else .ok ((alookup f FONT_KEYS).getD 0)

/-! ### Session operations and reachable states

The claims about the slot pool quantify over whole plotting sessions: any
sequence of titled, auto-positioned `add_scalar_bar` calls (each preceded, as
in `add_mesh`, by the acting mapper having its scalar range set) interleaved
with `clear`s. -/

/-- One session operation: a titled auto-positioned scalar-bar call driven by
mapper `m` whose range `add_mesh` set to `r`, or a `clear`. -/
inductive SessionOp where
  | bar (t : String) (m : ℕ) (r : SRange) : SessionOp
  | clear : SessionOp
  deriving DecidableEq

/-- Apply one session operation. -/
def applyOp (st : PlotterState) : SessionOp → PlotterState × Option SBError
  | .bar t m r =>
      addScalarBar { st with mapperRanges := setMapperRange st.mapperRanges m r }
        (some t) m none none
  | .clear => (st.clear, none)

/-- Run a session from a fresh plotter, recording whether every operation
completed without raising. -/
def runSession (ops : List SessionOp) : PlotterState × Bool :=
  ops.foldl
    (fun acc op =>
      let next := applyOp acc.1 op
      (next.1, acc.2 && next.2.isNone))
    (basePlotterInit [], true)

/-- States reachable from a fresh session through successful titled
acquisitions / range merges and clears. -/
inductive Reachable : PlotterState → Prop where
  | init : ∀ env, Reachable (basePlotterInit env)
  | step : ∀ {st : PlotterState} {t : String} {m : ℕ} {r : SRange} {st' : PlotterState},
      Reachable st → t.isEmpty = false → applyOp st (.bar t m r) = (st', none) →
      Reachable st'
  | stepClear : ∀ {st : PlotterState}, Reachable st → Reachable st.clear

/-! ### Association-list lemmas -/

theorem alookup_aupdate_self {β : Type} (k : String) (v : β) (l : List (String × β)) :
    alookup k (aupdate k v l) = some v := by
  induction l with
  | nil => simp [alookup, aupdate]
  | cons hd tl ih =>
    by_cases h : hd.1 = k
    · simp [alookup, aupdate, h]
    · simp [alookup, aupdate, h, ih]

theorem alookup_aupdate_ne {β : Type} {k k' : String} (hne : k' ≠ k) (v : β)
    (l : List (String × β)) : alookup k (aupdate k' v l) = alookup k l := by
  induction l with
  | nil => simp [alookup, aupdate, hne]
  | cons hd tl ih =>
    by_cases h : hd.1 = k'
    · have hk : ¬hd.1 = k := fun hh => hne (h ▸ hh)
      simp [alookup, aupdate, h, hk, hne, Ne.symm hne]
    · by_cases h2 : hd.1 = k <;>
        simp [alookup, aupdate, h, h2, hne, Ne.symm hne, ih]

theorem alookup_eq_none_iff {β : Type} (k : String) (l : List (String × β)) :
    alookup k l = none ↔ k ∉ l.map Prod.fst := by
  induction l with
  | nil => simp [alookup]
  | cons hd tl ih =>
    by_cases h : hd.1 = k
    · simp [alookup, h]
    · have hk : ¬k = hd.1 := fun e => h e.symm
      simp [alookup, h, ih, hk]

theorem alookup_isSome_iff {β : Type} (k : String) (l : List (String × β)) :
    (alookup k l).isSome ↔ k ∈ l.map Prod.fst := by
  rcases hx : alookup k l with _ | v
  · simp [(alookup_eq_none_iff k l).mp hx]
  · simp only [Option.isSome_some, true_iff]
    by_contra hc
    rw [(alookup_eq_none_iff k l).mpr hc] at hx
    exact Option.noConfusion hx

theorem aupdate_of_not_mem {β : Type} {k : String} (v : β) {l : List (String × β)}
    (h : k ∉ l.map Prod.fst) : aupdate k v l = l ++ [(k, v)] := by
  induction l with
  | nil => simp [aupdate]
  | cons hd tl ih =>
    simp only [List.map_cons, List.mem_cons] at h
    push_neg at h
    have h1 : ¬hd.1 = k := fun hh => h.1 hh.symm
    simp [aupdate, h1, ih h.2]

theorem aupdate_map_fst_of_mem {β : Type} {k : String} (v : β) {l : List (String × β)}
    (h : k ∈ l.map Prod.fst) : (aupdate k v l).map Prod.fst = l.map Prod.fst := by
  induction l with
  | nil => simp at h
  | cons hd tl ih =>
    by_cases hh : hd.1 = k
    · simp [aupdate, hh]
    · simp only [List.map_cons, List.mem_cons] at h
      rcases h with h | h
      · exact absurd h.symm hh
      · simp [aupdate, hh, ih h]

/-! ### Mapper-environment lemmas -/

theorem nlookup_nupdate_self {β : Type} (k : ℕ) (v : β) (l : List (ℕ × β)) :
    nlookup k (nupdate k v l) = some v := by
  induction l with
  | nil => simp [nlookup, nupdate]
  | cons hd tl ih =>
    by_cases h : hd.1 = k
    · simp [nlookup, nupdate, h]
    · simp [nlookup, nupdate, h, ih]

theorem nlookup_nupdate_ne {β : Type} {k k' : ℕ} (hne : k' ≠ k) (v : β)
    (l : List (ℕ × β)) : nlookup k (nupdate k' v l) = nlookup k l := by
  induction l with
  | nil => simp [nlookup, nupdate, hne]
  | cons hd tl ih =>
    by_cases h : hd.1 = k'
    · have hk : ¬hd.1 = k := fun hh => hne (h ▸ hh)
      simp [nlookup, nupdate, h, hk, hne, Ne.symm hne]
    · by_cases h2 : hd.1 = k <;>
        simp [nlookup, nupdate, h, h2, hne, Ne.symm hne, ih]

theorem getMapperRange_set_self (env : List (ℕ × SRange)) (m : ℕ) (r : SRange) :
    getMapperRange (setMapperRange env m r) m = r := by
  simp [getMapperRange, setMapperRange, nlookup_nupdate_self]

theorem getMapperRange_set_ne (env : List (ℕ × SRange)) {m m' : ℕ} (hne : m' ≠ m)
    (r : SRange) : getMapperRange (setMapperRange env m' r) m = getMapperRange env m := by
  simp [getMapperRange, setMapperRange, nlookup_nupdate_ne hne]

/-- Folding `SetScalarRange r` over a list of handles: a handle in the list
ends up with range `r`; other handles keep their previous range. -/
theorem getMapperRange_foldl_set (l : List ℕ) (env : List (ℕ × SRange)) (r : SRange)
    (m : ℕ) :
    getMapperRange (l.foldl (fun e h => setMapperRange e h r) env) m =
      if m ∈ l then r else getMapperRange env m := by
  induction l generalizing env with
  | nil => simp
  | cons hd tl ih =>
    simp only [List.foldl_cons, ih, List.mem_cons]
    by_cases hm : m ∈ tl
    · simp [hm]
    · by_cases he : m = hd
      · simp [hm, he, getMapperRange_set_self]
      · have hne : hd ≠ m := fun e => he e.symm
        simp [hm, he, getMapperRange_set_ne env hne r]

/-! ### The merge path of `add_scalar_bar` -/

/-- The range union computed by the merge path (lines 1323-1327):
`(min(oldLow, newLow), max(oldHigh, newHigh))`. -/
def rangeUnion (r n : SRange) : SRange := (min r.1 n.1, max r.2 n.2)

/-- Union of a whole sequence of contributed ranges. -/
def unionAll (init : SRange) (rs : List SRange) : SRange := rs.foldl rangeUnion init

/-- Binding one more mesh under an existing title, as `add_mesh` does it: the
new mesh's mapper `m` has its scalar range set to `r`, then `add_scalar_bar`
runs with the shared title. -/
def mergeCall (st : PlotterState) (t : String) (m : ℕ) (r : SRange) : PlotterState :=
  (applyOp st (.bar t m r)).1

/-- A sequence of further meshes bound under one title. -/
def runMergeCalls (st : PlotterState) (t : String) (calls : List (ℕ × SRange)) :
    PlotterState :=
  calls.foldl (fun s c => mergeCall s t c.1 c.2) st

/-- Closed form of `add_scalar_bar` on the merge path (lines 1317-1334): when
the truthy title already has a stored range, the call stores the union of the
stored range with the mapper's current range, sets that union on every
previously stored mapper handle and on the new one, appends the new handle,
and raises nothing. -/
theorem addScalarBar_merge (st : PlotterState) {t : String} (ht : t.isEmpty = false)
    {old : SRange} (hold : alookup t st.scalarBarRanges = some old)
    (m : ℕ) (px py : Option ℚ) :
    addScalarBar st (some t) m px py =
      ({ st with
          mapperRanges :=
            (((alookup t st.scalarBarMappers).getD []) ++ [m]).foldl
              (fun e h => setMapperRange e h
                (rangeUnion old (getMapperRange st.mapperRanges m)))
              st.mapperRanges
          scalarBarMappers :=
            aupdate t (((alookup t st.scalarBarMappers).getD []) ++ [m])
              st.scalarBarMappers
          scalarBarRanges :=
            aupdate t (rangeUnion old (getMapperRange st.mapperRanges m))
              st.scalarBarRanges },
        none) := by
  simp [addScalarBar, titleTruthy, ht, hold, rangeUnion]

/-- One merge as performed by a further `add_mesh` under an existing title:
the stored range becomes the union of the old stored range and the new
mapper's range. -/
theorem mergeCall_fact (st : PlotterState) {t : String} (ht : t.isEmpty = false)
    {old : SRange} (hold : alookup t st.scalarBarRanges = some old) (m : ℕ)
    (r : SRange) :
    (applyOp st (.bar t m r)).2 = none ∧
    alookup t (mergeCall st t m r).scalarBarRanges = some (rangeUnion old r) ∧
    alookup t (mergeCall st t m r).scalarBarMappers
      = some (((alookup t st.scalarBarMappers).getD []) ++ [m]) ∧
    (∀ h, h ∈ ((alookup t st.scalarBarMappers).getD []) ++ [m] →
      getMapperRange (mergeCall st t m r).mapperRanges h = rangeUnion old r) := by
  have heq := addScalarBar_merge
    { st with mapperRanges := setMapperRange st.mapperRanges m r } ht hold m
    (none : Option ℚ) (none : Option ℚ)
  simp only [getMapperRange_set_self] at heq
  refine ⟨?_, ?_, ?_, ?_⟩
  · simp [applyOp, heq]
  · simp [mergeCall, applyOp, heq, alookup_aupdate_self]
  · simp [mergeCall, applyOp, heq, alookup_aupdate_self]
  · intro h hmem
    have henv : (mergeCall st t m r).mapperRanges =
        (((alookup t st.scalarBarMappers).getD []) ++ [m]).foldl
          (fun e x => setMapperRange e x (rangeUnion old r))
          (setMapperRange st.mapperRanges m r) := by
      simp only [mergeCall, applyOp, heq]
    rw [henv, getMapperRange_foldl_set]
    simp [hmem]

/-- **C2.** Range merge: binding a further mesh under an existing colorbar
title stores `(min(oldLow, newLow), max(oldHigh, newHigh))`, re-applies that
merged range to every previously associated mapper for the title plus the
new mapper, and across any sequence of such merges the stored range is the
union of all contributed ranges and never shrinks. -/
theorem C2_merge_range (st : PlotterState) {t : String} (ht : t.isEmpty = false)
    {old : SRange} (hold : alookup t st.scalarBarRanges = some old) :
    (∀ m r,
      (applyOp st (.bar t m r)).2 = none ∧
      alookup t (mergeCall st t m r).scalarBarRanges = some (rangeUnion old r) ∧
      alookup t (mergeCall st t m r).scalarBarMappers
        = some (((alookup t st.scalarBarMappers).getD []) ++ [m]) ∧
      (∀ h, h ∈ ((alookup t st.scalarBarMappers).getD []) ++ [m] →
        getMapperRange (mergeCall st t m r).mapperRanges h = rangeUnion old r)) ∧
    (∀ calls : List (ℕ × SRange),
      alookup t (runMergeCalls st t calls).scalarBarRanges
        = some (unionAll old (calls.map Prod.snd))) ∧
    (∀ (calls : List (ℕ × SRange)) (c : ℕ × SRange),
      (unionAll old ((calls ++ [c]).map Prod.snd)).1
          ≤ (unionAll old (calls.map Prod.snd)).1 ∧
      (unionAll old (calls.map Prod.snd)).2
          ≤ (unionAll old ((calls ++ [c]).map Prod.snd)).2) := by
  have hseq : ∀ calls : List (ℕ × SRange), ∀ st' : PlotterState, ∀ old' : SRange,
      alookup t st'.scalarBarRanges = some old' →
      alookup t (runMergeCalls st' t calls).scalarBarRanges
        = some (unionAll old' (calls.map Prod.snd)) := by
    intro calls
    induction calls with
    | nil => intro st' old' h; simpa [runMergeCalls, unionAll] using h
    | cons c rest ih =>
      intro st' old' h
      have hstep := (mergeCall_fact st' ht h c.1 c.2).2.1
      have := ih (mergeCall st' t c.1 c.2) (rangeUnion old' c.2) hstep
      simpa [runMergeCalls, unionAll] using this
  refine ⟨fun m r => mergeCall_fact st ht hold m r,
    fun calls => hseq calls st old hold, ?_⟩
  intro calls c
  have : unionAll old ((calls ++ [c]).map Prod.snd)
      = rangeUnion (unionAll old (calls.map Prod.snd)) c.2 := by
    simp [unionAll]
  rw [this]
  exact ⟨min_le_left _ _, le_max_left _ _⟩

/-- Witness for C2: starting from a session where title `"T"` stores `(0, 5)`
on mapper `0`, merging `(-2, 3)` (mapper `1`) and then `(1, 2)` (mapper `2`)
leaves the stored range `(-2, 5)`, set on all three mappers. -/
theorem C2_merge_range_witness :
    alookup "T"
        (runMergeCalls
          { scalarBarSlots := (Finset.range 10).erase 0
            scalarBarSlotLookup := [("T", 1)]
            scalarBarRanges := [("T", (0, 5))]
            scalarBarMappers := [("T", [0])]
            mapperRanges := [(0, (0, 5))] }
          "T" [(1, (-2, 3)), (2, (1, 2))]).scalarBarRanges
      = some (-2, 5) := by
  have h := (@C2_merge_range
    { scalarBarSlots := (Finset.range 10).erase 0
      scalarBarSlotLookup := [("T", 1)]
      scalarBarRanges := [("T", (0, 5))]
      scalarBarMappers := [("T", [0])]
      mapperRanges := [(0, (0, 5))] }
    "T" (by decide) (0, 5) (by decide)).2.1
    [(1, (-2, 3)), (2, (1, 2))]
  rw [h]
  decide

/-- **C4.** Acquire idempotence: when a title already holds a colorbar entry,
a further `add_scalar_bar` for it takes the early-return merge path — it
raises nothing, allocates no slot, leaves the free pool and the whole
title-to-slot lookup (hence the title's recorded slot) unchanged. -/
theorem C4_acquire_idempotent (st : PlotterState) {t : String}
    (ht : t.isEmpty = false) {r : SRange}
    (hold : alookup t st.scalarBarRanges = some r) (m : ℕ) (px py : Option ℚ) :
    (addScalarBar st (some t) m px py).2 = none ∧
    (addScalarBar st (some t) m px py).1.scalarBarSlots = st.scalarBarSlots ∧
    (addScalarBar st (some t) m px py).1.scalarBarSlots.card
      = st.scalarBarSlots.card ∧
    (addScalarBar st (some t) m px py).1.scalarBarSlotLookup
      = st.scalarBarSlotLookup ∧
    alookup t (addScalarBar st (some t) m px py).1.scalarBarSlotLookup
      = alookup t st.scalarBarSlotLookup := by
  rw [addScalarBar_merge st ht hold m px py]
  exact ⟨rfl, rfl, rfl, rfl, rfl⟩

/-- Witness for C4: after acquiring title `"T"` on a fresh session, a second
acquire for `"T"` raises nothing and changes neither the pool nor the
recorded slot. -/
theorem C4_acquire_idempotent_witness :
    ((addScalarBar (applyOp (basePlotterInit []) (.bar "T" 0 (0, 1))).1
        (some "T") 1 none none).2 = none) ∧
    (addScalarBar (applyOp (basePlotterInit []) (.bar "T" 0 (0, 1))).1
        (some "T") 1 none none).1.scalarBarSlots
      = (applyOp (basePlotterInit []) (.bar "T" 0 (0, 1))).1.scalarBarSlots ∧
    (addScalarBar (applyOp (basePlotterInit []) (.bar "T" 0 (0, 1))).1
        (some "T") 1 none none).1.scalarBarSlotLookup
      = (applyOp (basePlotterInit []) (.bar "T" 0 (0, 1))).1.scalarBarSlotLookup := by
  have h := C4_acquire_idempotent
    (applyOp (basePlotterInit []) (.bar "T" 0 (0, 1))).1
    (t := "T") (by decide) (r := (0, 1)) (by decide) 1 none none
  exact ⟨h.1, h.2.1, h.2.2.2.1⟩

/-! ### Claims about the `add_mesh` scalar pipeline -/

instance : Std.Antisymm (fun x1 x2 : ℚ => x1 ≤ x2) :=
  ⟨fun {_ _} h h' => le_antisymm h h'⟩

theorem qmin?_eq_some {l : List ℚ} {a : ℚ} (ha : a ∈ l) (hle : ∀ b ∈ l, a ≤ b) :
    l.min? = some a := by
  rw [List.min?_eq_some_iff (fun x => le_refl x) (fun x y => min_choice x y)
    (fun x y z => le_min_iff)]
  exact ⟨ha, hle⟩

theorem qmax?_eq_some {l : List ℚ} {a : ℚ} (ha : a ∈ l) (hle : ∀ b ∈ l, b ≤ a) :
    l.max? = some a := by
  rw [List.max?_eq_some_iff (fun x => le_refl x) (fun x y => max_choice x y)
    (fun x y z => max_le_iff)]
  exact ⟨ha, hle⟩

/-- The array actually consumed by the scalar-formatting block, after the
`ravel` and `astype` normalizations of lines 714-718. -/
def normalizedScalars (a : NArray) : NArray :=
  let s1 := if a.ndim ≠ 1 then a.ravel else a
  if s1.isBool then s1.astypeFloat else s1

theorem addMeshScalars_eq (mesh : Mesh) (a : NArray) (rng : RngSpec) :
    addMeshScalars mesh a rng =
      match chooseAssociation (normalizedScalars a).data.length mesh.nPoints
          mesh.nCells with
      | .error e => .error e
      | .ok assoc =>
        .ok { assoc := assoc
              coerced := (normalizedScalars a).data
              resolvedRng := resolveRange rng (normalizedScalars a).data
              appliedRng :=
                match resolveRange rng (normalizedScalars a).data with
                | some r => if npAny r then some r else none
                | none => none } := rfl

theorem normalizedScalars_length (a : NArray) :
    (normalizedScalars a).data.length = a.data.length := by
  by_cases h1 : a.ndim = 1 <;> by_cases hb : a.isBool <;>
    simp [normalizedScalars, NArray.ravel, NArray.astypeFloat, h1, hb]

theorem normalizedScalars_of_plain {a : NArray} (h1 : a.ndim = 1)
    (hnb : a.isBool = false) : normalizedScalars a = a := by
  simp [normalizedScalars, h1, hnb]

/-- **C3.** Scalar association decision: a 1-D array whose length equals the
point count binds with Point association; one whose length equals the cell
count (and not the point count) binds with Cell association; any other
length raises the size-mismatch error reporting the array length against
both the point count and the cell count. -/
theorem C3_scalar_association (mesh : Mesh) (a : NArray) (rng : RngSpec)
    (h1 : a.ndim = 1) :
    (a.data.length = mesh.nPoints →
      ∃ out, addMeshScalars mesh a rng = .ok out ∧ out.assoc = .point) ∧
    (a.data.length ≠ mesh.nPoints → a.data.length = mesh.nCells →
      ∃ out, addMeshScalars mesh a rng = .ok out ∧ out.assoc = .cell) ∧
    (a.data.length ≠ mesh.nPoints → a.data.length ≠ mesh.nCells →
      addMeshScalars mesh a rng
        = .error (.notMatching a.data.length mesh.nPoints mesh.nCells)) := by
  have hlen := normalizedScalars_length a
  refine ⟨fun hp => ?_, fun hp hc => ?_, fun hp hc => ?_⟩
  · rw [addMeshScalars_eq]
    simp only [chooseAssociation]
    rw [if_pos (hlen.trans hp)]
    exact ⟨_, rfl, rfl⟩
  · rw [addMeshScalars_eq]
    simp only [chooseAssociation]
    rw [if_neg (fun e => hp (hlen.symm.trans e)), if_pos (hlen.trans hc)]
    exact ⟨_, rfl, rfl⟩
  · rw [addMeshScalars_eq]
    simp only [chooseAssociation]
    rw [if_neg (fun e => hp (hlen.symm.trans e)),
      if_neg (fun e => hc (hlen.symm.trans e)), hlen]

/-- Witness for C3, the spec's scenario: a mesh with 8 points and 6 cells;
an array of length 8 binds as Point, one of length 6 as Cell, and one of
length 7 raises the mismatch error reporting 7 against 8 and 6. -/
theorem C3_scalar_association_witness :
    (∃ out, addMeshScalars ⟨8, 6, [], none, "m"⟩
        ⟨1, false, List.replicate 8 (.num 1)⟩ .absent = .ok out
      ∧ out.assoc = .point) ∧
    (∃ out, addMeshScalars ⟨8, 6, [], none, "m"⟩
        ⟨1, false, List.replicate 6 (.num 1)⟩ .absent = .ok out
      ∧ out.assoc = .cell) ∧
    addMeshScalars ⟨8, 6, [], none, "m"⟩
        ⟨1, false, List.replicate 7 (.num 1)⟩ .absent
      = .error (.notMatching 7 8 6) := by
  refine ⟨(C3_scalar_association ⟨8, 6, [], none, "m"⟩
      ⟨1, false, List.replicate 8 (.num 1)⟩ .absent rfl).1 (by decide),
    (C3_scalar_association ⟨8, 6, [], none, "m"⟩
      ⟨1, false, List.replicate 6 (.num 1)⟩ .absent rfl).2.1 (by decide) (by decide),
    (C3_scalar_association ⟨8, 6, [], none, "m"⟩
      ⟨1, false, List.replicate 7 (.num 1)⟩ .absent rfl).2.2 (by decide) (by decide)⟩

/-- **C6.** Scalar-range resolution: a single number `s` resolves to
`(-s, s)`; a pair is used as given; an absent range resolves to the
`(nanmin, nanmax)` of the scalars; and a resolved range whose bounds are
both zero is not applied to the mapper, while any other resolved range is
applied as-is. -/
theorem C6_range_resolution (mesh : Mesh) (a : NArray) (h1 : a.ndim = 1)
    (hnb : a.isBool = false) (hsz : a.data.length = mesh.nPoints) :
    (∀ s : ℚ, ∃ out, addMeshScalars mesh a (.scalar s) = .ok out ∧
      out.resolvedRng = some (-s, s)) ∧
    (∀ lo hi : ℚ, ∃ out, addMeshScalars mesh a (.pair lo hi) = .ok out ∧
      out.resolvedRng = some (lo, hi)) ∧
    (∀ lo hi : ℚ, nanmin a.data = some lo → nanmax a.data = some hi →
      ∃ out, addMeshScalars mesh a .absent = .ok out ∧
        out.resolvedRng = some (lo, hi)) ∧
    (∀ rng out, addMeshScalars mesh a rng = .ok out →
      out.resolvedRng = some ((0 : ℚ), (0 : ℚ)) → out.appliedRng = none) ∧
    (∀ rng out r, addMeshScalars mesh a rng = .ok out →
      out.resolvedRng = some r → r ≠ ((0 : ℚ), (0 : ℚ)) →
      out.appliedRng = some r) := by
  have hno := normalizedScalars_of_plain h1 hnb
  have hok : ∀ rng, addMeshScalars mesh a rng =
      .ok { assoc := .point
            coerced := a.data
            resolvedRng := resolveRange rng a.data
            appliedRng :=
              match resolveRange rng a.data with
              | some r => if npAny r then some r else none
              | none => none } := by
    intro rng
    rw [addMeshScalars_eq, hno]
    simp only [chooseAssociation]
    rw [if_pos hsz]
  refine ⟨fun s => ?_, fun lo hi => ?_, fun lo hi hmin hmax => ?_, ?_, ?_⟩
  · exact ⟨_, hok _, rfl⟩
  · exact ⟨_, hok _, rfl⟩
  · refine ⟨_, hok _, ?_⟩
    simp [resolveRange, hmin, hmax]
  · intro rng out hout hres
    rw [hok rng] at hout
    cases hout
    simp only at hres ⊢
    rw [hres]
    simp [npAny]
  · intro rng out r hout hres hne
    rw [hok rng] at hout
    cases hout
    simp only at hres ⊢
    rw [hres]
    have : npAny r = true := by
      rcases r with ⟨rl, rh⟩
      by_cases hl : rl = 0 <;> by_cases hh : rh = 0 <;>
        simp_all [npAny, Prod.ext_iff]
    simp [this]

/-- Witness for C6 at concrete inputs: on an 8-point mesh, a bare `3`
resolves to `(-3, 3)`; the pair `(2, 4)` is kept; an absent range over data
with a NaN resolves to the NaN-ignoring `(min, max)`; and the pair `(0, 0)`
resolves but is not applied. -/
theorem C6_range_resolution_witness :
    (∃ out, addMeshScalars ⟨8, 6, [], none, "m"⟩
        ⟨1, false, List.replicate 8 (.num 1)⟩ (.scalar 3) = .ok out ∧
      out.resolvedRng = some (-3, 3)) ∧
    (∃ out, addMeshScalars ⟨8, 6, [], none, "m"⟩
        ⟨1, false, [.num 2, .num 5, .nan, .num 3, .num 1, .num 0, .num 7, .num 4]⟩
        .absent = .ok out ∧ out.resolvedRng = some (0, 7)) ∧
    (∀ out, addMeshScalars ⟨8, 6, [], none, "m"⟩
        ⟨1, false, List.replicate 8 (.num 1)⟩ (.pair 0 0) = .ok out →
      out.resolvedRng = some (0, 0) → out.appliedRng = none) := by
  refine ⟨(C6_range_resolution ⟨8, 6, [], none, "m"⟩
      ⟨1, false, List.replicate 8 (.num 1)⟩ rfl rfl (by decide)).1 3,
    (C6_range_resolution ⟨8, 6, [], none, "m"⟩
      ⟨1, false, [.num 2, .num 5, .nan, .num 3, .num 1, .num 0, .num 7, .num 4]⟩
      rfl rfl (by decide)).2.2.1 0 7 (by decide) (by decide),
    fun out hout hres => (C6_range_resolution ⟨8, 6, [], none, "m"⟩
      ⟨1, false, List.replicate 8 (.num 1)⟩ rfl rfl (by decide)).2.2.2.1
      (.pair 0 0) out hout hres⟩

/-- **C8.** Boolean scalar coercion: a `np.bool` array of point-count length
with no explicit range is coerced to floating point `0.0`/`1.0` before range
computation, and when it contains both `False` and `True` the computed
(and applied) range is `(0.0, 1.0)`. -/
theorem C8_bool_coercion (mesh : Mesh) (a : NArray) (hb : a.isBool = true)
    (h1 : a.ndim = 1) (hsz : a.data.length = mesh.nPoints)
    (hvals : ∀ v ∈ a.data, ∃ b, v = NpValue.boolean b)
    (hf : NpValue.boolean false ∈ a.data)
    (htr : NpValue.boolean true ∈ a.data) :
    ∃ out, addMeshScalars mesh a .absent = .ok out ∧
      out.coerced = a.data.map NpValue.astypeFloat ∧
      (∀ v ∈ out.coerced, v = NpValue.num 0 ∨ v = NpValue.num 1) ∧
      out.assoc = .point ∧
      out.resolvedRng = some (0, 1) ∧
      out.appliedRng = some (0, 1) := by
  have hno : normalizedScalars a = a.astypeFloat := by
    simp [normalizedScalars, h1, hb]
  have hdata : (a.astypeFloat).data = a.data.map NpValue.astypeFloat := rfl
  have hlen : (a.astypeFloat).data.length = mesh.nPoints := by
    simp [NArray.astypeFloat, hsz]
  have hg0 : (0 : ℚ) ∈ finiteVals (a.data.map NpValue.astypeFloat) := by
    rw [finiteVals, List.mem_filterMap]
    exact ⟨NpValue.num 0, List.mem_map.mpr ⟨.boolean false, hf, rfl⟩, rfl⟩
  have hg1 : (1 : ℚ) ∈ finiteVals (a.data.map NpValue.astypeFloat) := by
    rw [finiteVals, List.mem_filterMap]
    exact ⟨NpValue.num 1, List.mem_map.mpr ⟨.boolean true, htr, rfl⟩, rfl⟩
  have hrange : ∀ q ∈ finiteVals (a.data.map NpValue.astypeFloat),
      q = 0 ∨ q = 1 := by
    intro q hq
    rw [finiteVals, List.mem_filterMap] at hq
    obtain ⟨v, hv, hgv⟩ := hq
    obtain ⟨w, hw, rfl⟩ := List.mem_map.mp hv
    obtain ⟨b, rfl⟩ := hvals w hw
    cases b
    · left
      simp [NpValue.astypeFloat] at hgv
      exact hgv.symm
    · right
      simp [NpValue.astypeFloat] at hgv
      exact hgv.symm
  have hmin : nanmin (a.data.map NpValue.astypeFloat) = some 0 :=
    qmin?_eq_some hg0 (fun b hbm => by rcases hrange b hbm with h | h <;> simp [h])
  have hmax : nanmax (a.data.map NpValue.astypeFloat) = some 1 :=
    qmax?_eq_some hg1 (fun b hbm => by rcases hrange b hbm with h | h <;> simp [h])
  have hcv : ∀ v ∈ a.data.map NpValue.astypeFloat,
      v = NpValue.num 0 ∨ v = NpValue.num 1 := by
    intro v hv
    obtain ⟨w, hw, rfl⟩ := List.mem_map.mp hv
    obtain ⟨b, rfl⟩ := hvals w hw
    cases b
    · exact Or.inl rfl
    · exact Or.inr rfl
  rw [addMeshScalars_eq, hno]
  simp only [chooseAssociation]
  rw [if_pos hlen]
  refine ⟨_, rfl, hdata, ?_, rfl, ?_, ?_⟩
  · simpa [hdata] using hcv
  · simp [hdata, resolveRange, hmin, hmax]
  · simp [hdata, resolveRange, hmin, hmax, npAny]

/-- Witness for C8: an 8-element boolean array containing both values, on a
mesh with 8 points, yields a Point binding with range `(0, 1)`. -/
theorem C8_bool_coercion_witness :
    ∃ out, addMeshScalars ⟨8, 6, [], none, "m"⟩
        ⟨1, true, [.boolean true, .boolean false, .boolean true, .boolean true,
                   .boolean false, .boolean true, .boolean true, .boolean false]⟩
        .absent = .ok out ∧
      out.coerced = [NpValue.boolean true, .boolean false, .boolean true,
          .boolean true, .boolean false, .boolean true, .boolean true,
          .boolean false].map NpValue.astypeFloat ∧
      (∀ v ∈ out.coerced, v = NpValue.num 0 ∨ v = NpValue.num 1) ∧
      out.assoc = .point ∧
      out.resolvedRng = some (0, 1) ∧
      out.appliedRng = some (0, 1) :=
  C8_bool_coercion ⟨8, 6, [], none, "m"⟩
    ⟨1, true, [.boolean true, .boolean false, .boolean true, .boolean true,
               .boolean false, .boolean true, .boolean true, .boolean false]⟩
    rfl rfl (by decide)
    (by intro v hv; fin_cases hv <;> exact ⟨_, rfl⟩)
    (by decide) (by decide)

/-- A mesh with an active rank-1 scalar array, used to settle C7. -/
def c7Mesh : Mesh :=
  { nPoints := 3
    nCells := 1
    textures := []
    activeScalar := some ⟨1, false, [.num 1, .num 2, .num 3]⟩
    activeScalarName := "temp" }

/-- Counterexample to C7 as stated: a call with the scalar specification
absent but a color given does NOT consult the mesh's active rank-1 array —
the default-preference block (line 666) runs only when `scalars`, `color`
and `texture` are all absent, so the result carries no scalar binding. -/
theorem C7_counterexample :
    (∃ arr, c7Mesh.activeScalar = some arr ∧ arr.ndim = 1) ∧
    (resolveDefaultScalars c7Mesh none (some "red") false none).1 = none := by
  exact ⟨⟨⟨1, false, [.num 1, .num 2, .num 3]⟩, rfl, rfl⟩, rfl⟩

/-- **C7 (amended).** Default-scalar fallback: when the scalar
specification, color and texture are all absent and the mesh holds no
textures, `add_mesh` looks up the mesh's active named array and binds it
when it is rank-1 (defaulting the scalar-bar title to the array's name);
otherwise it produces no scalar binding and falls back to flat color. -/
theorem C7_default_scalar (mesh : Mesh) (stitle : Option String)
    (htex : mesh.textures = []) :
    (∀ arr, mesh.activeScalar = some arr → arr.ndim = 1 →
      resolveDefaultScalars mesh none none false stitle
        = (some arr, some (stitle.getD mesh.activeScalarName), false)) ∧
    (mesh.activeScalar = none →
      resolveDefaultScalars mesh none none false stitle
        = (none, stitle, false)) ∧
    (∀ arr, mesh.activeScalar = some arr → arr.ndim ≠ 1 →
      resolveDefaultScalars mesh none none false stitle
        = (none, stitle, false)) := by
  refine ⟨fun arr ha h1 => ?_, fun ha => ?_, fun arr ha h1 => ?_⟩
  · simp [resolveDefaultScalars, htex, ha, h1]
  · simp [resolveDefaultScalars, htex, ha]
  · simp [resolveDefaultScalars, htex, ha, h1]

/-- Witness for the amended C7: with nothing specified, the active rank-1
array of `c7Mesh` is bound and the title defaults to its name. -/
theorem C7_default_scalar_witness :
    resolveDefaultScalars c7Mesh none none false none
      = (some ⟨1, false, [.num 1, .num 2, .num 3]⟩, some "temp", false) :=
  (C7_default_scalar c7Mesh none rfl).1 _ rfl rfl

/-- **C9.** Font-family resolution: `parse_font_family` succeeds exactly on
names whose lower-casing is one of `courier`, `times`, `arial`, returning
the `FONT_KEYS` engine constant, and raises the invalid-font error
otherwise. -/
theorem C9_font_resolution (name : String) :
    (pyLower name ∈ ["courier", "times", "arial"] →
      parseFontFamily name = .ok ((alookup (pyLower name) FONT_KEYS).getD 0)) ∧
    (pyLower name ∉ ["courier", "times", "arial"] →
      parseFontFamily name = .error .invalidFont) ∧
    ((∃ f, parseFontFamily name = .ok f) ↔
      pyLower name ∈ ["courier", "times", "arial"]) := by
  by_cases h : pyLower name ∈ ["courier", "times", "arial"]
  · exact ⟨fun _ => by simp [parseFontFamily, h], fun hn => absurd h hn,
      by simp [parseFontFamily, h]⟩
  · exact ⟨fun hy => absurd hy h, fun _ => by simp [parseFontFamily, h],
      by simp [parseFontFamily, h]⟩

/-- Witness for C9: mixed-case members of the set resolve to their engine
constants; an unknown font name raises. -/
theorem C9_font_resolution_witness :
    parseFontFamily "Arial" = .ok VTK_ARIAL ∧
    parseFontFamily "TIMES" = .ok VTK_TIMES ∧
    parseFontFamily "helvetica" = .error .invalidFont := by
  refine ⟨?_, ?_, (C9_font_resolution "helvetica").2.1 (by decide)⟩
  · exact ((C9_font_resolution "Arial").1 (by decide)).trans (by decide)
  · exact ((C9_font_resolution "TIMES").1 (by decide)).trans (by decide)

/-- **C10.** With both `position_x` and `position_y` explicitly provided,
`add_scalar_bar` never removes a slot from the free pool and can never raise
the capacity-exceeded error, no matter how many titles hold slots; but for a
new truthy title it still reads `min` of the free pool to record in the
title-to-slot lookup, which raises on an empty pool and otherwise records
the pool's current minimum. -/
theorem C10_explicit_position (st : PlotterState) (title : Option String)
    (m : ℕ) (px py : ℚ) :
    (addScalarBar st title m (some px) (some py)).1.scalarBarSlots
        = st.scalarBarSlots ∧
    (addScalarBar st title m (some px) (some py)).2 ≠ some SBError.maxColorBars ∧
    (∀ t, title = some t → t.isEmpty = false →
      alookup t st.scalarBarRanges = none →
      (st.scalarBarSlots = ∅ →
        (addScalarBar st title m (some px) (some py)).2
          = some SBError.emptyPoolMin) ∧
      (∀ h : st.scalarBarSlots.Nonempty,
        (addScalarBar st title m (some px) (some py)).2 = none ∧
        alookup t
            (addScalarBar st title m (some px) (some py)).1.scalarBarSlotLookup
          = some (st.scalarBarSlots.min' h))) := by
  by_cases hmerge :
      titleTruthy title ∧ (alookup (title.getD "") st.scalarBarRanges).isSome
  · rw [addScalarBar, if_pos hmerge]
    refine ⟨rfl, by simp, ?_⟩
    rintro t rfl ht hnone
    rw [Option.getD_some, hnone] at hmerge
    exact absurd hmerge.2 (by simp)
  · rw [addScalarBar, if_neg hmerge]
    rw [if_neg (by simp)]
    by_cases htr : titleTruthy title
    · rw [recordTitled, if_pos htr]
      by_cases hne : st.scalarBarSlots.Nonempty
      · rw [dif_pos hne]
        refine ⟨rfl, by simp, ?_⟩
        rintro t rfl ht hnone
        refine ⟨fun hempty => absurd hne (by simp [hempty]), fun h => ?_⟩
        exact ⟨rfl, by simp [alookup_aupdate_self]⟩
      · rw [dif_neg hne]
        refine ⟨rfl, by simp, ?_⟩
        rintro t rfl ht hnone
        refine ⟨fun _ => rfl, fun h => absurd h hne⟩
    · rw [recordTitled, if_neg htr]
      refine ⟨rfl, by simp, ?_⟩
      rintro t rfl ht hnone
      exact absurd (by simp [titleTruthy, ht]) htr

/-- Witness for C10: on a fresh session, an explicitly positioned call with
a new title removes nothing from the pool, raises nothing, and records slot
`0` (the pool minimum) for the title. -/
theorem C10_explicit_position_witness :
    (addScalarBar (basePlotterInit []) (some "T") 0
        (some (1 / 2)) (some (1 / 2))).1.scalarBarSlots
      = (basePlotterInit []).scalarBarSlots ∧
    (addScalarBar (basePlotterInit []) (some "T") 0
        (some (1 / 2)) (some (1 / 2))).2 = none ∧
    alookup "T" (addScalarBar (basePlotterInit []) (some "T") 0
        (some (1 / 2)) (some (1 / 2))).1.scalarBarSlotLookup = some 0 := by
  have hc := C10_explicit_position (basePlotterInit []) (some "T") 0 (1 / 2) (1 / 2)
  have hp := (hc.2.2 "T" rfl (by decide) (by decide)).2
    (by exact ⟨0, by decide⟩)
  refine ⟨hc.1, hp.1, ?_⟩
  rw [hp.2]
  decide

/-! ### The slot-pool invariant over reachable session states -/

theorem Ico_min'_eq {k n : ℕ} (hk : k < n) (h : (Finset.Ico k n).Nonempty) :
    (Finset.Ico k n).min' h = k := by
  apply le_antisymm
  · exact Finset.min'_le _ k (Finset.mem_Ico.mpr ⟨le_refl k, hk⟩)
  · exact Finset.le_min' _ _ _ (fun y hy => (Finset.mem_Ico.mp hy).1)

theorem Ico_erase_min {k n : ℕ} :
    (Finset.Ico k n).erase k = Finset.Ico (k + 1) n := by
  ext x
  simp only [Finset.mem_erase, Finset.mem_Ico]
  omega

/-- A successful titled acquisition on a fresh title: the pool loses its
minimum, the entry dicts gain the title, and — per line 1400 — the slot
recorded in the lookup is the minimum of the pool as it stands AFTER the
removal, not the removed slot. -/
theorem addScalarBar_fresh_success (st : PlotterState) {t : String}
    (ht : t.isEmpty = false) (hnone : alookup t st.scalarBarRanges = none)
    (m : ℕ) (h : st.scalarBarSlots.Nonempty)
    (h2 : (st.scalarBarSlots.erase (st.scalarBarSlots.min' h)).Nonempty) :
    addScalarBar st (some t) m none none =
      ({ st with
          scalarBarSlots := st.scalarBarSlots.erase (st.scalarBarSlots.min' h)
          scalarBarRanges :=
            aupdate t (getMapperRange st.mapperRanges m) st.scalarBarRanges
          scalarBarMappers := aupdate t [m] st.scalarBarMappers
          scalarBarSlotLookup :=
            aupdate t
              ((st.scalarBarSlots.erase (st.scalarBarSlots.min' h)).min' h2)
              st.scalarBarSlotLookup },
        none) := by
  unfold addScalarBar recordTitled
  split_ifs with hc1 hc2 hc3
  · exact absurd hc1 (by simp [titleTruthy, ht, hnone])
  · dsimp only
    rw [dif_pos h2]
    rfl
  · exact absurd (show titleTruthy (some t) = true by simp [titleTruthy, ht]) hc3
  all_goals exact absurd (Or.inl rfl) hc2

/-- A titled acquisition that empties the pool: the `min` of the
emptied pool raises (line 1400) after the entry dicts were already
mutated. -/
theorem addScalarBar_fresh_fail (st : PlotterState) {t : String}
    (ht : t.isEmpty = false) (hnone : alookup t st.scalarBarRanges = none)
    (m : ℕ) (h : st.scalarBarSlots.Nonempty)
    (h2 : ¬(st.scalarBarSlots.erase (st.scalarBarSlots.min' h)).Nonempty) :
    (addScalarBar st (some t) m none none).2 = some SBError.emptyPoolMin := by
  unfold addScalarBar recordTitled
  split_ifs with hc1 hc2 hc3
  · exact absurd hc1 (by simp [titleTruthy, ht, hnone])
  · dsimp only
    rw [dif_neg h2]
  · exact absurd (show titleTruthy (some t) = true by simp [titleTruthy, ht]) hc3
  all_goals exact absurd (Or.inl rfl) hc2

/-- The inductive shape of every reachable session state: the pool is an
interval `{k, ..., 9}`; the entry dicts and the lookup agree on their keys,
which are distinct; and the recorded slots are exactly `[1, ..., k]`. -/
def SlotInv (st : PlotterState) : Prop :=
  ∃ k : ℕ, k ≤ MAX_N_COLOR_BARS - 1 ∧
    st.scalarBarSlots = Finset.Ico k MAX_N_COLOR_BARS ∧
    st.scalarBarRanges.map Prod.fst = st.scalarBarSlotLookup.map Prod.fst ∧
    (st.scalarBarRanges.map Prod.fst).Nodup ∧
    st.scalarBarSlotLookup.map Prod.snd = (List.range k).map (· + 1)

theorem slotInv_cleared (env : List (ℕ × SRange)) : SlotInv (basePlotterInit env) := by
  refine ⟨0, by omega, ?_, rfl, List.nodup_nil, rfl⟩
  exact congrFun Finset.range_eq_Ico MAX_N_COLOR_BARS

theorem reachable_slotInv {st : PlotterState} (h : Reachable st) : SlotInv st := by
  induction h with
  | init env => exact slotInv_cleared env
  | stepClear hreach ih =>
    obtain ⟨k, _, _, _, _, _⟩ := ih
    refine ⟨0, by omega, ?_, rfl, List.nodup_nil, rfl⟩
    exact congrFun Finset.range_eq_Ico MAX_N_COLOR_BARS
  | step hreach ht happ ih =>
    rename_i st t m r st'
    obtain ⟨k, hk, hslots, hkeys, hnodup, hsnd⟩ := ih
    set st1 : PlotterState :=
      { st with mapperRanges := setMapperRange st.mapperRanges m r } with hst1
    have hslots1 : st1.scalarBarSlots = Finset.Ico k MAX_N_COLOR_BARS := hslots
    by_cases hin : (alookup t st.scalarBarRanges).isSome
    · -- merge path: the pool and the lookup are untouched, the ranges dict
      -- is updated at an existing key
      obtain ⟨old, hold⟩ := Option.isSome_iff_exists.mp hin
      have heq := @addScalarBar_merge st1 t ht old hold m
        (none : Option ℚ) (none : Option ℚ)
      have hst' : st' = (addScalarBar st1 (some t) m none none).1 := by
        have : applyOp st (.bar t m r) = (st', none) := happ
        simp only [applyOp] at this
        exact congrArg Prod.fst this.symm
      rw [heq] at hst'
      subst hst'
      refine ⟨k, hk, hslots, ?_, ?_, hsnd⟩
      · have hmem : t ∈ st.scalarBarRanges.map Prod.fst :=
          (alookup_isSome_iff t st.scalarBarRanges).mp hin
        simp only []
        rw [aupdate_map_fst_of_mem _ hmem]
        exact hkeys
      · have hmem : t ∈ st.scalarBarRanges.map Prod.fst :=
          (alookup_isSome_iff t st.scalarBarRanges).mp hin
        simp only []
        rw [aupdate_map_fst_of_mem _ hmem]
        exact hnodup
    · -- fresh path: a slot is popped and the title appended everywhere
      have hnone : alookup t st.scalarBarRanges = none :=
        Option.not_isSome_iff_eq_none.mp hin
      have hne : st1.scalarBarSlots.Nonempty := by
        rw [hslots1]
        exact Finset.nonempty_Ico.mpr (by
          simp only [MAX_N_COLOR_BARS] at hk ⊢; omega)
      have hmin : st1.scalarBarSlots.min' hne = k := by
        apply le_antisymm
        · apply Finset.min'_le
          rw [hslots1]
          exact Finset.mem_Ico.mpr
            ⟨le_refl k, by simp only [MAX_N_COLOR_BARS] at hk ⊢; omega⟩
        · apply Finset.le_min'
          intro y hy
          rw [hslots1] at hy
          exact (Finset.mem_Ico.mp hy).1
      by_cases hk8 : k + 1 < MAX_N_COLOR_BARS
      · have h2 : (st1.scalarBarSlots.erase (st1.scalarBarSlots.min' hne)).Nonempty := by
          rw [hmin, hslots1, Ico_erase_min]
          exact Finset.nonempty_Ico.mpr hk8
        have heq := addScalarBar_fresh_success st1 ht hnone m hne h2
        have hst' : st' = (addScalarBar st1 (some t) m none none).1 := by
          have : applyOp st (.bar t m r) = (st', none) := happ
          simp only [applyOp] at this
          exact congrArg Prod.fst this.symm
        rw [heq] at hst'
        subst hst'
        have hnotmem : t ∉ st.scalarBarRanges.map Prod.fst :=
          (alookup_eq_none_iff t st.scalarBarRanges).mp hnone
        have hnotmem2 : t ∉ st.scalarBarSlotLookup.map Prod.fst := by
          rw [← hkeys]; exact hnotmem
        have herase : st1.scalarBarSlots.erase (st1.scalarBarSlots.min' hne)
            = Finset.Ico (k + 1) MAX_N_COLOR_BARS := by
          rw [hmin, hslots1, Ico_erase_min]
        have hmin2 : (st1.scalarBarSlots.erase (st1.scalarBarSlots.min' hne)).min' h2
            = k + 1 := by
          apply le_antisymm
          · apply Finset.min'_le
            rw [herase]
            exact Finset.mem_Ico.mpr ⟨le_refl _, hk8⟩
          · apply Finset.le_min'
            intro y hy
            rw [herase] at hy
            exact (Finset.mem_Ico.mp hy).1
        refine ⟨k + 1, by simp only [MAX_N_COLOR_BARS] at hk8 ⊢; omega,
          herase, ?_, ?_, ?_⟩
        · simp only []
          rw [aupdate_of_not_mem _ hnotmem, aupdate_of_not_mem _ hnotmem2]
          simp [hkeys]
        · simp only []
          rw [aupdate_of_not_mem _ hnotmem]
          rw [List.map_append]
          exact hnodup.append (List.nodup_singleton t)
            (fun x hx hx' => by
              simp only [List.map_cons, List.map_nil, List.mem_singleton] at hx'
              exact hnotmem (hx' ▸ hx))
        · simp only []
          rw [aupdate_of_not_mem _ hnotmem2, List.map_append, hsnd, hmin2]
          rw [List.range_succ, List.map_append]
          simp
      · -- the would-be tenth acquisition raises, so it is not a successful step
        exfalso
        have h2 : ¬(st1.scalarBarSlots.erase (st1.scalarBarSlots.min' hne)).Nonempty := by
          rw [hmin, hslots1, Ico_erase_min]
          rw [Finset.nonempty_Ico]
          omega
        have hfail := addScalarBar_fresh_fail st1 ht hnone m hne h2
        have : applyOp st (.bar t m r) = (st', none) := happ
        simp only [applyOp] at this
        rw [show (addScalarBar st1 (some t) m none none).2 = none from
          congrArg Prod.snd this] at hfail
        exact Option.noConfusion hfail

/-- Counterexample to C5's "the slot recorded for a title is the slot that
was removed from the free pool for it": the very first acquisition in a
fresh session removes slot `0` (the pool minimum) but records slot `1` —
the minimum of the pool AFTER the removal (line 1400) — in the lookup. -/
theorem C5_slot_counterexample :
    (applyOp (basePlotterInit []) (.bar "A" 0 (0, 1))).2 = none ∧
    (basePlotterInit []).scalarBarSlots \
        (applyOp (basePlotterInit []) (.bar "A" 0 (0, 1))).1.scalarBarSlots
      = {0} ∧
    alookup "A"
        (applyOp (basePlotterInit []) (.bar "A" 0 (0, 1))).1.scalarBarSlotLookup
      = some 1 := by
  decide

/-- **C5 (amended).** At every reachable session state the recorded slots
are pairwise distinct (a slot is held by at most one colorbar entry), the
lookup and the ranges dict carry equally many entries, and the number of
allocated slots (capacity minus free-pool size) equals the number of
entries.  However, the slot a successful fresh acquisition records for its
title is the minimum of the free pool AFTER the removal — the successor of
the removed slot in these states — not the removed slot itself. -/
theorem C5_slot_invariant :
    (∀ st, Reachable st →
      (st.scalarBarSlotLookup.map Prod.snd).Nodup ∧
      st.scalarBarSlotLookup.length = st.scalarBarRanges.length ∧
      st.scalarBarRanges.length = MAX_N_COLOR_BARS - st.scalarBarSlots.card ∧
      st.scalarBarSlots.card ≤ MAX_N_COLOR_BARS) ∧
    (∀ (st : PlotterState) (t : String) (m : ℕ) (r : SRange),
      t.isEmpty = false → alookup t st.scalarBarRanges = none →
      ∀ h : st.scalarBarSlots.Nonempty,
      ∀ h2 : (st.scalarBarSlots.erase (st.scalarBarSlots.min' h)).Nonempty,
      (applyOp st (.bar t m r)).2 = none ∧
      (applyOp st (.bar t m r)).1.scalarBarSlots
          = st.scalarBarSlots.erase (st.scalarBarSlots.min' h) ∧
      alookup t (applyOp st (.bar t m r)).1.scalarBarSlotLookup
        = some ((st.scalarBarSlots.erase (st.scalarBarSlots.min' h)).min' h2)) := by
  constructor
  · intro st hst
    obtain ⟨k, hk, hslots, hkeys, hnodup, hsnd⟩ := reachable_slotInv hst
    have hlenlookup : st.scalarBarSlotLookup.length = k := by
      have := congrArg List.length hsnd
      simpa using this
    have hlenranges : st.scalarBarRanges.length = k := by
      have h1 := congrArg List.length hkeys
      simpa [hlenlookup] using h1
    have hcard : st.scalarBarSlots.card = MAX_N_COLOR_BARS - k := by
      rw [hslots, Nat.card_Ico]
    refine ⟨?_, ?_, ?_, ?_⟩
    · rw [hsnd]
      exact List.Nodup.map (fun a b e => by omega) (List.nodup_range k)
    · rw [hlenlookup, hlenranges]
    · rw [hlenranges, hcard]
      simp only [MAX_N_COLOR_BARS] at hk ⊢
      omega
    · rw [hcard]
      omega
  · intro st t m r ht hnone h h2
    have heq := addScalarBar_fresh_success
      { st with mapperRanges := setMapperRange st.mapperRanges m r }
      ht hnone m h h2
    refine ⟨?_, ?_, ?_⟩
    · show (addScalarBar
          { st with mapperRanges := setMapperRange st.mapperRanges m r }
          (some t) m none none).2 = none
      rw [heq]
    · show (addScalarBar
          { st with mapperRanges := setMapperRange st.mapperRanges m r }
          (some t) m none none).1.scalarBarSlots = _
      rw [heq]
    · show alookup t (addScalarBar
          { st with mapperRanges := setMapperRange st.mapperRanges m r }
          (some t) m none none).1.scalarBarSlotLookup = _
      rw [heq]
      exact alookup_aupdate_self t _ _

/-- Witness for C5: the state after one successful acquisition is reachable
and satisfies the invariant, and a second fresh acquisition from it records
slot `2` (the minimum of the remaining pool after removing slot `1`). -/
theorem C5_slot_invariant_witness :
    ((applyOp (basePlotterInit []) (.bar "A" 0 (0, 1))).1.scalarBarSlotLookup.map
        Prod.snd).Nodup ∧
    (applyOp (basePlotterInit []) (.bar "A" 0 (0, 1))).1.scalarBarRanges.length
      = MAX_N_COLOR_BARS
          - (applyOp (basePlotterInit []) (.bar "A" 0 (0, 1))).1.scalarBarSlots.card ∧
    alookup "B" (applyOp (applyOp (basePlotterInit []) (.bar "A" 0 (0, 1))).1
        (.bar "B" 1 (0, 1))).1.scalarBarSlotLookup = some 2 := by
  have hreach : Reachable (applyOp (basePlotterInit []) (.bar "A" 0 (0, 1))).1 :=
    Reachable.step (t := "A") (m := 0) (r := (0, 1))
      (Reachable.init []) (by decide) (by decide)
  have h1 := C5_slot_invariant.1 _ hreach
  have h2 := C5_slot_invariant.2 (applyOp (basePlotterInit []) (.bar "A" 0 (0, 1))).1
    "B" 1 (0, 1) (by decide) (by decide) ⟨1, by decide⟩ ⟨2, by decide⟩
  refine ⟨h1.1, h1.2.2.1, ?_⟩
  rw [h2.2.2]
  decide

/-! ### C1: the capacity scenario -/

/-- Nine distinct titled auto-positioned acquisitions, each driven by a
fresh mapper whose range `add_mesh` set. -/
def c1NineOps : List SessionOp :=
  [.bar "t1" 1 (0, 1), .bar "t2" 2 (0, 1), .bar "t3" 3 (0, 1),
   .bar "t4" 4 (0, 1), .bar "t5" 5 (0, 1), .bar "t6" 6 (0, 1),
   .bar "t7" 7 (0, 1), .bar "t8" 8 (0, 1), .bar "t9" 9 (0, 1)]

/-- **C1** (evaluating the code at the failing input).  Nine distinct titled
auto-positioned acquisitions succeed, but the TENTH — which the claim says
must still succeed — raises the uncaught `ValueError` of
`min(self._scalar_bar_slots)` on the just-emptied pool (line 1400), not the
capacity error; the capacity error `Maximum number of color bars reached.`
is only raised from the ELEVENTH call, after the crashed tenth emptied the
pool; and after `clear` a new titled acquisition succeeds again. -/
theorem C1_capacity_bug :
    (runSession c1NineOps).2 = true ∧
    (applyOp (runSession c1NineOps).1 (.bar "t10" 10 (0, 1))).2
      = some SBError.emptyPoolMin ∧
    (applyOp (applyOp (runSession c1NineOps).1 (.bar "t10" 10 (0, 1))).1
        (.bar "t11" 11 (0, 1))).2 = some SBError.maxColorBars ∧
    (applyOp ((applyOp (runSession c1NineOps).1 (.bar "t10" 10 (0, 1))).1).clear
        (.bar "t12" 12 (0, 1))).2 = none := by
  decide

end Vtki
